import Mathlib

/-
Verification of the langarr language-classification and reconciliation engine.

The definitions below are a shallow embedding of the Python source in
src/language-tagger/arr-language-tagger.py and
src/language-tagger/webhook_server.py.  Python strings are Lean `String`s,
Python dynamic values (which may be ints or strings) are `PyVal`, Python
sets of tag ids are `Finset Int`, and the ordered dictionaries the source
builds are association lists in insertion order.
-/

/-- Is `n` a leading block of `h` (character lists)? Used to implement
Python substring containment. -/
def leadsWith : List Char → List Char → Bool
  | [], _ => true
  | _ :: _, [] => false
  | a :: as, b :: bs => a == b && leadsWith as bs

/-- Does `h` contain `n` as a contiguous block? -/
def containsSeqCh (n : List Char) : List Char → Bool
  | [] => leadsWith n []
  | h :: t => leadsWith n (h :: t) || containsSeqCh n t

/-- Python `needle in hay` substring test. -/
def containsSeq (hay needle : String) : Bool :=
  containsSeqCh needle.data hay.data

/-- Python `str.lower()` restricted to ASCII case mapping. -/
def strLower (s : String) : String :=
  ⟨s.data.map Char.toLower⟩

/-- ASCII whitespace recognizer for `strip`. -/
def isWsCh (c : Char) : Bool :=
  c == ' ' || c == '\t' || c == '\n' || c == '\r'

/-- Python `str.strip()` (ASCII whitespace). -/
def strStrip (s : String) : String :=
  ⟨((s.data.dropWhile isWsCh).reverse.dropWhile isWsCh).reverse⟩

/-- A Python scalar as it occurs in the JSON payloads the tagger reads:
either an int or a string. -/
inductive PyVal where
  | pint : Int → PyVal
  | pstr : String → PyVal
deriving DecidableEq, Repr

/-- Python `str(v)`. -/
def pyStr : PyVal → String
  | .pint n => toString n
  | .pstr s => s

/-- Python truthiness test negated: `not v` for the values we model. -/
def pyFalsy : PyVal → Bool
  | .pint n => n == 0
  | .pstr s => s == ""

/-- Digits of a decimal literal to a natural number. -/
def digitsToNat (l : List Char) : Nat :=
  l.foldl (fun acc c => acc * 10 + (c.toNat - '0'.toNat)) 0

/-- Python `int(s)` on a string: optional surrounding whitespace, optional
sign, then decimal digits; `none` models the raised `ValueError`. -/
def parseIntStr (s : String) : Option Int :=
  let t := (strStrip s).data
  match t with
  | [] => none
  | '-' :: ds =>
    if ds ≠ [] ∧ ds.all Char.isDigit then some (-(digitsToNat ds : Int)) else none
  | '+' :: ds =>
    if ds ≠ [] ∧ ds.all Char.isDigit then some (digitsToNat ds : Int) else none
  | ds =>
    if ds.all Char.isDigit then some (digitsToNat ds : Int) else none

/-- Python `int(v)` as used in `build_language_mapping`'s direct-ID branch. -/
def pyToInt : PyVal → Option Int
  | .pint n => some n
  | .pstr s => parseIntStr s

/-- AudioTagProcessor.LANGUAGE_ALIASES, in source (dict insertion) order. -/
def LANGUAGE_ALIASES : List (String × String) := [
  ("de", "german"), ("deu", "german"), ("ger", "german"), ("german", "german"),
  ("deutsch", "german"),
  ("en", "english"), ("eng", "english"), ("english", "english"),
  ("fr", "french"), ("fra", "french"), ("fre", "french"), ("french", "french"),
  ("francais", "french"),
  ("es", "spanish"), ("spa", "spanish"), ("spanish", "spanish"), ("espanol", "spanish"),
  ("it", "italian"), ("ita", "italian"), ("italian", "italian"), ("italiano", "italian"),
  ("ja", "japanese"), ("jpn", "japanese"), ("japanese", "japanese"),
  ("ko", "korean"), ("kor", "korean"), ("korean", "korean"),
  ("zh", "chinese"), ("zho", "chinese"), ("chi", "chinese"), ("chinese", "chinese"),
  ("mandarin", "chinese"),
  ("ru", "russian"), ("rus", "russian"), ("russian", "russian"),
  ("pt", "portuguese"), ("por", "portuguese"), ("portuguese", "portuguese"),
  ("nl", "dutch"), ("nld", "dutch"), ("dut", "dutch"), ("dutch", "dutch"),
  ("pl", "polish"), ("pol", "polish"), ("polish", "polish"),
  ("sv", "swedish"), ("swe", "swedish"), ("swedish", "swedish"),
  ("no", "norwegian"), ("nor", "norwegian"), ("norwegian", "norwegian"),
  ("da", "danish"), ("dan", "danish"), ("danish", "danish"),
  ("fi", "finnish"), ("fin", "finnish"), ("finnish", "finnish"),
  ("tr", "turkish"), ("tur", "turkish"), ("turkish", "turkish"),
  ("ar", "arabic"), ("ara", "arabic"), ("arabic", "arabic"),
  ("hi", "hindi"), ("hin", "hindi"), ("hindi", "hindi"),
  ("cs", "czech"), ("ces", "czech"), ("cze", "czech"), ("czech", "czech"),
  ("hu", "hungarian"), ("hun", "hungarian"), ("hungarian", "hungarian"),
  ("th", "thai"), ("tha", "thai"), ("thai", "thai"),
  ("vi", "vietnamese"), ("vie", "vietnamese"), ("vietnamese", "vietnamese")]

/-- Exact alias-table lookup (Python `LANGUAGE_ALIASES.get(lang)`). -/
def lookupAlias (t : String) : Option String :=
  (LANGUAGE_ALIASES.find? (fun p => p.1 == t)).map (·.2)

/-- First alias related to `t` by substring overlap in either direction
(the `for alias, canonical_name in ... if alias in lang or lang in alias`
scan of parse_audio_languages). -/
def findPartialAlias (t : String) : Option String :=
  (LANGUAGE_ALIASES.find? (fun p => containsSeq t p.1 || containsSeq p.1 t)).map (·.2)

/-- The language normalization step of AudioTagProcessor.parse_audio_languages
(lines 729-741): exact alias lookup, else first substring-overlap alias,
else the token passes through unchanged.  The caller has already lowercased
and stripped the token. -/
def normalizeLang (t : String) : String :=
  match lookupAlias t with
  | some c => c
  | none =>
    match findPartialAlias t with
    | some c => c
    | none => t

/-- The iso_639_1_map dict local to ArrInstance.build_language_mapping
(lines 277-300), in source order. -/
def iso_639_1_map : List (String × String) := [
  ("en", "english"),
  ("de", "german"), ("deu", "german"),
  ("fr", "french"), ("fra", "french"),
  ("es", "spanish"), ("spa", "spanish"),
  ("it", "italian"), ("ita", "italian"),
  ("ja", "japanese"), ("jpn", "japanese"),
  ("ko", "korean"), ("kor", "korean"),
  ("zh", "chinese"), ("zho", "chinese"),
  ("ru", "russian"), ("rus", "russian"),
  ("pt", "portuguese"), ("por", "portuguese"),
  ("nl", "dutch"), ("nld", "dutch"),
  ("sv", "swedish"), ("swe", "swedish"),
  ("no", "norwegian"), ("nor", "norwegian"),
  ("da", "danish"), ("dan", "danish"),
  ("fi", "finnish"), ("fin", "finnish"),
  ("pl", "polish"), ("pol", "polish"),
  ("cs", "czech"), ("ces", "czech"),
  ("hu", "hungarian"), ("hun", "hungarian"),
  ("tr", "turkish"), ("tur", "turkish"),
  ("ar", "arabic"), ("ara", "arabic"),
  ("hi", "hindi"), ("hin", "hindi"),
  ("hr", "croatian"), ("hrv", "croatian")]

/-- Python `iso_639_1_map.get(config_str, config_str)` (line 320). -/
def isoGet (t : String) : String :=
  match iso_639_1_map.find? (fun p => p.1 == t) with
  | some p => p.2
  | none => t

/-- The originalLanguage field of an item as read via `item.get('originalLanguage')`:
missing-or-None, present but not a dict, or a dict with optional id and name
entries. -/
inductive OrigLang where
  | absent : OrigLang
  | nondict : PyVal → OrigLang
  | obj : Option PyVal → Option String → OrigLang
deriving DecidableEq, Repr

/-- Ordered-dict assignment `d[k] = v`: replace in place if the key exists,
else append (Python dict insertion-order semantics). -/
def updAssoc (l : List (PyVal × String)) (k : PyVal) (v : String) : List (PyVal × String) :=
  if l.any (fun p => p.1 == k) then
    l.map (fun p => if p.1 == k then (k, v) else p)
  else l ++ [(k, v)]

/-- The api_languages collection pass of build_language_mapping (lines 262-269):
sample the first 50 items, keep well-formed {id, name} pairs with non-empty
stripped name. -/
def observeLangs (items : List OrigLang) : List (PyVal × String) :=
  (items.take 50).foldl
    (fun acc it =>
      match it with
      | .obj (some i) (some nm) =>
        let nm' := strStrip nm
        if nm' == "" then acc else updAssoc acc i nm'
      | _ => acc)
    []

/-- The per-configured-language scan over observed names (lines 323-335):
walk the observations in order; the first name equal to the target wins, else
the first name overlapping it as a substring in either direction. -/
def matchByName (obs : List (PyVal × String)) (target : String) : Option PyVal :=
  match obs with
  | [] => none
  | (k, nm) :: rest =>
    let an := strStrip (strLower nm)
    if an == target then some k
    else if containsSeq an target || containsSeq target an then some k
    else matchByName rest target

/-- Resolution of one configured language token against the observed languages
(lines 304-335): direct integer-ID passthrough first, else normalize the token
through iso_639_1_map and scan the observed names. -/
def matchConfigLang (obs : List (PyVal × String)) (cfg : PyVal) : Option PyVal :=
  match pyToInt cfg with
  | some n =>
    if obs.any (fun p => p.1 == PyVal.pint n) then some (PyVal.pint n)
    else matchByName obs (isoGet (strStrip (strLower (pyStr cfg))))
  | none => matchByName obs (isoGet (strStrip (strLower (pyStr cfg))))

/-- One iteration of the matched-ids accumulation (the `matched_ids.add`
calls): record the match, keeping the collection duplicate-free. -/
def collectStep (f : PyVal → Option PyVal) (acc : List PyVal) (c : PyVal) : List PyVal :=
  match f c with
  | some x => if acc.contains x then acc else acc ++ [x]
  | none => acc

/-- ArrInstance.build_language_mapping (lines 255-342), as the set of matched
ids it stores in language_id_map (a list without duplicates, in match order). -/
def build_language_mapping (items : List OrigLang) (cfgLangs : List PyVal) : List PyVal :=
  let obs := observeLangs items
  if obs.isEmpty then []
  else cfgLangs.foldl (collectStep (matchConfigLang obs)) []

/-- Spec-worded comparison definition for the language map: identical to
build_language_mapping except that, as the spec's sentence asserts, the
configured token is normalized via LanguageNormalizer (the LANGUAGE_ALIASES
normalization of parse_audio_languages) instead of the iso_639_1_map table. -/
def matchConfigLangSpecAlias (obs : List (PyVal × String)) (cfg : PyVal) : Option PyVal :=
  match pyToInt cfg with
  | some n =>
    if obs.any (fun p => p.1 == PyVal.pint n) then some (PyVal.pint n)
    else matchByName obs (normalizeLang (strStrip (strLower (pyStr cfg))))
  | none => matchByName obs (normalizeLang (strStrip (strLower (pyStr cfg))))

/-- The language map the spec's sentence describes (normalization via the
LanguageNormalizer alias table). -/
def buildMapSpecAlias (items : List OrigLang) (cfgLangs : List PyVal) : List PyVal :=
  let obs := observeLangs items
  if obs.isEmpty then []
  else cfgLangs.foldl (collectStep (matchConfigLangSpecAlias obs)) []

/-- Recursive scan of the observed names, written the way the amended spec
sentence reads: walk the observations in order and accept the first name that
matches the target exactly or overlaps it as a substring. -/
def nameScanSpec (target : String) : List (PyVal × String) → Option PyVal
  | [] => none
  | (k, nm) :: rest =>
    let an := strStrip (strLower nm)
    if an == target then some k
    else if containsSeq an target || containsSeq target an then some k
    else nameScanSpec target rest

/-- One configured token resolved per the amended spec sentence: direct
numeric-id passthrough if the token parses as an observed integer id, else
normalize via the fixed ISO-639 code table (exact lookup, falling back to the
token itself) and scan the observed names in observation order. -/
def specMatchOneIso (obs : List (PyVal × String)) (cfg : PyVal) : Option PyVal :=
  match pyToInt cfg with
  | some n =>
    if (PyVal.pint n) ∈ obs.map (·.1) then some (PyVal.pint n)
    else nameScanSpec (isoGet (strStrip (strLower (pyStr cfg)))) obs
  | none => nameScanSpec (isoGet (strStrip (strLower (pyStr cfg)))) obs

/-- The language map per the amended spec sentence: empty when nothing was
observed, else the deduplicated matched ids of the configured tokens. -/
def buildMapSpecIso (items : List OrigLang) (cfgLangs : List PyVal) : List PyVal :=
  let obs := observeLangs items
  if obs = [] then []
  else (cfgLangs.filterMap (specMatchOneIso obs)).dedup

/-- ArrInstance.should_prefer_dub (lines 419-455).  `langMap` is the
language_id_map set built by build_language_mapping, `cfgLangs` the configured
original_languages list, `ol` the item's originalLanguage field. -/
def should_prefer_dub (langMap : List PyVal) (cfgLangs : List PyVal) (ol : OrigLang) : Bool :=
  match ol with
  | .absent => false
  | .nondict _ => false
  | .obj oid _ =>
    match oid with
    | none => false
    | some idv =>
      if pyFalsy idv then false
      else if !langMap.isEmpty && langMap.contains idv then false
      else
        let s := strStrip (strLower (pyStr idv))
        if cfgLangs.any (fun c => strStrip (strLower (pyStr c)) == s) then false
        else true

/-- Per-instance configuration of ArrInstance.update_item: the resolved marker
tag id, the two resolved profile ids, and the dry-run flag. -/
structure ArrCfg where
  tagId : Int
  dubProfile : Int
  origProfile : Int
  dryRun : Bool
deriving DecidableEq, Repr

/-- The current remote state of an item as update_item reads it: tag-id set
and quality profile id. -/
structure ItemState where
  tags : Finset Int
  profileId : Int
deriving DecidableEq

/-- Observable outcome of one ArrInstance.update_item call: the returned
updated flag, the payload of the PUT if one was issued, whether the profile
changed, and whether the trigger_search_for_item path was invoked. -/
structure UpdResult where
  updated : Bool
  wrote : Option ItemState
  profileChanged : Bool
  searchInvoked : Bool
deriving DecidableEq

/-- ArrInstance.update_item (lines 457-537).  `putOk` models whether the PUT
at line 520 succeeds or raises. -/
def update_item (cfg : ArrCfg) (cur : ItemState) (addTag : Bool) (putOk : Bool) : UpdResult :=
  let targetProfile := if addTag then cfg.dubProfile else cfg.origProfile
  let tagChange : Bool :=
    if addTag then (if cfg.tagId ∈ cur.tags then false else true)
    else (if cfg.tagId ∈ cur.tags then true else false)
  let newTags : Finset Int :=
    if addTag then (if cfg.tagId ∈ cur.tags then cur.tags else insert cfg.tagId cur.tags)
    else (if cfg.tagId ∈ cur.tags then cur.tags.erase cfg.tagId else cur.tags)
  let profChange : Bool := if cur.profileId = targetProfile then false else true
  let newProfile := if cur.profileId = targetProfile then cur.profileId else targetProfile
  if tagChange || profChange then
    if cfg.dryRun then ⟨false, none, profChange, false⟩
    else if putOk then ⟨true, some ⟨newTags, newProfile⟩, profChange, profChange⟩
    else ⟨false, some ⟨newTags, newProfile⟩, profChange, false⟩
  else ⟨false, none, profChange, false⟩

/-- Whether the search-trigger path runs for one item on the webhook path
(WebhookServer.process_media_request lines 273-278): update_item runs the
reconciliation, and on a successful update the webhook additionally calls
trigger_search_for_item unconditionally. -/
def webhookSearchPathInvoked (cfg : ArrCfg) (cur : ItemState) (addTag : Bool) (putOk : Bool) : Bool :=
  let r := update_item cfg cur addTag putOk
  r.searchInvoked || r.updated

/-- Observable outcome of AudioTagProcessor.update_item_tags: the returned
flag and the tag set written by the PUT if one was issued. -/
structure TagUpdResult where
  updated : Bool
  wrote : Option (Finset Int)
deriving DecidableEq

/-- AudioTagProcessor.update_item_tags (lines 801-843).  `putOk` models whether
the PUT at line 838 succeeds or raises. -/
def update_item_tags (dryRun : Bool) (curTags toAdd toRemove : Finset Int) (putOk : Bool) : TagUpdResult :=
  let newTags := (curTags ∪ toAdd) \ toRemove
  if newTags = curTags then ⟨false, none⟩
  else if dryRun then ⟨false, none⟩
  else if putOk then ⟨true, some newTags⟩
  else ⟨false, some newTags⟩

/-- String-keyed lookup in the tag_map dict (tag name to tag id). -/
def lookupTagId (tagMap : List (String × Int)) (nm : String) : Option Int :=
  (tagMap.find? (fun p => p.1 == nm)).map (·.2)

/-- One iteration of the tags_to_add / tags_to_remove loop: for a configured
canonical-language/tag-name pair whose tag resolved to a truthy id, add the id
if the language was detected, else mark it for removal. -/
def tagDeltaStep (tagMap : List (String × Int)) (detected : Finset String)
    (acc : Finset Int × Finset Int) (p : String × String) : Finset Int × Finset Int :=
  match lookupTagId tagMap p.2 with
  | none => acc
  | some tid =>
    if tid = 0 then acc
    else if p.1 ∈ detected then (insert tid acc.1, acc.2)
    else (acc.1, insert tid acc.2)

/-- The tags_to_add / tags_to_remove computation of process_radarr_instance
(lines 907-918) and process_sonarr_instance (lines 1004-1015). -/
def computeTagDelta (langToTag : List (String × String)) (tagMap : List (String × Int))
    (detected : Finset String) : Finset Int × Finset Int :=
  langToTag.foldl (tagDeltaStep tagMap detected) (∅, ∅)

/-- The tag ids any configured language-to-tag mapping resolves to. -/
def resolvedTagIds (langToTag : List (String × String)) (tagMap : List (String × Int)) : Finset Int :=
  (langToTag.filterMap (fun p => lookupTagId tagMap p.2)).toFinset

/-- The per-series aggregation of process_sonarr_instance (lines 988-1001):
common_langs starts as the first file's detected set, every further file
intersects into it, and no files at all yields the empty set. -/
def aggregateAcrossFiles (l : List (Finset String)) : Finset String :=
  match l with
  | [] => ∅
  | s :: rest => rest.foldl (fun a b => a ∩ b) s

/-- Search-trigger configuration of an ArrInstance: the trigger_search_on_update
flag, the per-item cooldown, the global minimum interval, and the dry-run flag. -/
structure SearchCfg where
  triggerOn : Bool
  cooldown : Int
  minInterval : Int
  dryRun : Bool
deriving DecidableEq

/-- The in-memory search tracking state of an ArrInstance:
last_triggered_searches as an association list and last_any_search. -/
structure SearchState where
  lastTriggered : List (Int × Int)
  lastAny : Int
deriving DecidableEq

/-- Whether the search command POST at line 204 succeeds or raises. -/
inductive PostOutcome where
  | ok : PostOutcome
  | err : PostOutcome
deriving DecidableEq

/-- Outcome of one trigger_search_for_item call: resulting tracking state and
returned flag. -/
structure SearchResult where
  state : SearchState
  ret : Bool
deriving DecidableEq

/-- Assoc-list lookup for the per-item last-search timestamps. -/
def lookupLast (l : List (Int × Int)) (k : Int) : Option Int :=
  (l.find? (fun p => p.1 == k)).map (·.2)

/-- Assoc-list assignment for the per-item last-search timestamps. -/
def setLast (l : List (Int × Int)) (k : Int) (v : Int) : List (Int × Int) :=
  if l.any (fun p => p.1 == k) then
    l.map (fun p => if p.1 == k then (k, v) else p)
  else l ++ [(k, v)]

/-- The per-item cooldown check of trigger_search_for_item (lines 171-177):
denied when the item has a recorded last search less than the cooldown ago. -/
def cooldownDenied (cfg : SearchCfg) (st : SearchState) (itemId t1 : Int) : Bool :=
  match lookupLast st.lastTriggered itemId with
  | some last => decide (t1 - last < cfg.cooldown)
  | none => false

/-- ArrInstance.trigger_search_for_item (lines 156-214).  `t1` is the clock
value at the per-item cooldown check, `twrite` the clock value at which the
tracking timestamps are written after a successful POST; the global
minimum-interval wait is a sleep and leaves the state untouched. -/
def trigger_search_for_item (cfg : SearchCfg) (st : SearchState) (itemId : Int)
    (t1 twrite : Int) (post : PostOutcome) : SearchResult :=
  if !cfg.triggerOn then ⟨st, false⟩
  else if cooldownDenied cfg st itemId t1 then ⟨st, false⟩
  else if cfg.dryRun then ⟨st, false⟩
  else
    match post with
    | .ok => ⟨⟨setLast st.lastTriggered itemId twrite, twrite⟩, true⟩
    | .err => ⟨st, false⟩

/- Helper lemmas (shared; not tied to a single claim). -/

/-- Every canonical name in the alias table is also a key mapping to itself. -/
theorem alias_values_selfmap : ∀ p ∈ LANGUAGE_ALIASES, lookupAlias p.2 = some p.2 := by
  decide

/-- A successful exact alias lookup returns a value of the table. -/
theorem lookupAlias_mem {t c : String} (h : lookupAlias t = some c) :
    ∃ p ∈ LANGUAGE_ALIASES, p.2 = c := by
  unfold lookupAlias at h
  rw [Option.map_eq_some'] at h
  obtain ⟨p, hf, hpc⟩ := h
  exact ⟨p, List.mem_of_find?_eq_some hf, hpc⟩

/-- A successful substring-overlap scan returns a value of the table. -/
theorem findPartialAlias_mem {t c : String} (h : findPartialAlias t = some c) :
    ∃ p ∈ LANGUAGE_ALIASES, p.2 = c := by
  unfold findPartialAlias at h
  rw [Option.map_eq_some'] at h
  obtain ⟨p, hf, hpc⟩ := h
  exact ⟨p, List.mem_of_find?_eq_some hf, hpc⟩

/-- Canonical names are fixed points of the normalizer. -/
theorem normalizeLang_fixed {c : String} (hc : ∃ p ∈ LANGUAGE_ALIASES, p.2 = c) :
    normalizeLang c = c := by
  obtain ⟨p, hp, rfl⟩ := hc
  unfold normalizeLang
  rw [alias_values_selfmap p hp]

/-- C7: Language normalization is idempotent: for every token, normalizing a
second time changes nothing — tokens hitting the alias table (exactly or by
substring overlap) land on a canonical name that maps to itself, and tokens
matching nothing pass through unchanged. -/
theorem normalizeLang_idem (t : String) :
    normalizeLang (normalizeLang t) = normalizeLang t := by
  cases h1 : lookupAlias t with
  | some c =>
    have ht : normalizeLang t = c := by unfold normalizeLang; rw [h1]
    rw [ht]
    exact normalizeLang_fixed (lookupAlias_mem h1)
  | none =>
    cases h2 : findPartialAlias t with
    | some c =>
      have ht : normalizeLang t = c := by unfold normalizeLang; rw [h1, h2]
      rw [ht]
      exact normalizeLang_fixed (findPartialAlias_mem h2)
    | none =>
      have ht : normalizeLang t = t := by unfold normalizeLang; rw [h1, h2]
      rw [ht, ht]

/-- C4: Malformed or missing language metadata always yields the
original-preferred outcome: whatever the built language map and the configured
languages are, an absent originalLanguage, a non-dict originalLanguage, and a
dict without an id all make should_prefer_dub return false. -/
theorem should_prefer_dub_default (langMap cfgLangs : List PyVal) (v : PyVal)
    (nm : Option String) :
    should_prefer_dub langMap cfgLangs OrigLang.absent = false ∧
    should_prefer_dub langMap cfgLangs (OrigLang.nondict v) = false ∧
    should_prefer_dub langMap cfgLangs (OrigLang.obj none nm) = false :=
  ⟨rfl, rfl, rfl⟩

/-- C10: An item whose originalLanguage id equals the integer 0 is treated the
same as an item with a missing id: should_prefer_dub returns false regardless
of the configuration and of the built language map, because the truthiness
check treats the falsy id 0 as absent. -/
theorem should_prefer_dub_zero_id (langMap cfgLangs : List PyVal) (nm : Option String) :
    should_prefer_dub langMap cfgLangs (OrigLang.obj (some (PyVal.pint 0)) nm) = false ∧
    should_prefer_dub langMap cfgLangs (OrigLang.obj (some (PyVal.pint 0)) nm) =
      should_prefer_dub langMap cfgLangs (OrigLang.obj none nm) := by
  constructor
  · simp [should_prefer_dub, pyFalsy]
  · simp [should_prefer_dub, pyFalsy]

/-- Membership in the running intersection fold. -/
theorem foldl_inter_mem (rest : List (Finset String)) :
    ∀ (s : Finset String) (x : String),
      x ∈ rest.foldl (fun a b => a ∩ b) s ↔ x ∈ s ∧ ∀ t ∈ rest, x ∈ t := by
  induction rest with
  | nil => intro s x; simp
  | cons t rest ih =>
    intro s x
    simp only [List.foldl_cons, ih, Finset.mem_inter, List.mem_cons]
    constructor
    · rintro ⟨⟨hs, ht⟩, hall⟩
      exact ⟨hs, fun u hu => by rcases hu with rfl | hu; exact ht; exact hall u hu⟩
    · rintro ⟨hs, hall⟩
      exact ⟨⟨hs, hall t (Or.inl rfl)⟩, fun u hu => hall u (Or.inr hu)⟩

/-- C5: The per-series aggregate is the set intersection of the per-episode
detected sets — a language is in the aggregate iff it is in every file's set —
and an empty sequence of files yields the empty set. -/
theorem aggregateAcrossFiles_spec :
    aggregateAcrossFiles [] = ∅ ∧
    ∀ (l : List (Finset String)) (x : String), l ≠ [] →
      (x ∈ aggregateAcrossFiles l ↔ ∀ s ∈ l, x ∈ s) := by
  refine ⟨rfl, ?_⟩
  intro l x hl
  cases l with
  | nil => exact absurd rfl hl
  | cons s rest =>
    simp only [aggregateAcrossFiles, foldl_inter_mem, List.mem_cons]
    constructor
    · rintro ⟨hs, hall⟩
      intro t ht
      rcases ht with rfl | ht
      · exact hs
      · exact hall t ht
    · intro hall
      exact ⟨hall s (Or.inl rfl), fun t ht => hall t (Or.inr ht)⟩

/-- Witness for C5 at the spec's own example: the aggregate of
[{english, german}, {english}] contains english iff english is in both sets. -/
theorem aggregateAcrossFiles_spec_witness :
    "english" ∈ aggregateAcrossFiles [{"english", "german"}, {"english"}] ↔
      ∀ s ∈ [({"english", "german"} : Finset String), {"english"}], "english" ∈ s :=
  aggregateAcrossFiles_spec.2 [{"english", "german"}, {"english"}] "english" (by simp)

/-- C1: Reconciliation is a no-op when the item already has the target state:
if the current tag set already equals the target tag set (marker tag present
iff dub is preferred, absent otherwise) and the current profile id equals the
target profile id, update_item issues no PUT and returns updated = false. -/
theorem update_item_noop (cfg : ArrCfg) (cur : ItemState) (addTag putOk : Bool)
    (htags : (if addTag then insert cfg.tagId cur.tags else cur.tags.erase cfg.tagId) = cur.tags)
    (hprof : cur.profileId = (if addTag then cfg.dubProfile else cfg.origProfile)) :
    (update_item cfg cur addTag putOk).updated = false ∧
    (update_item cfg cur addTag putOk).wrote = none := by
  cases addTag with
  | false =>
    have hmem : cfg.tagId ∉ cur.tags := Finset.erase_eq_self.mp (by simpa using htags)
    simp only [Bool.false_eq_true, if_false] at hprof
    simp [update_item, hmem, hprof]
  | true =>
    have hmem : cfg.tagId ∈ cur.tags := Finset.insert_eq_self.mp (by simpa using htags)
    simp only [if_true] at hprof
    simp [update_item, hmem, hprof]

/-- Witness for C1 at the spec's scenario: tag 5 already present, profile 1
already the target profile. -/
theorem update_item_noop_witness :
    (update_item ⟨5, 1, 2, false⟩ ⟨{5}, 1⟩ true true).updated = false ∧
    (update_item ⟨5, 1, 2, false⟩ ⟨{5}, 1⟩ true true).wrote = none :=
  update_item_noop ⟨5, 1, 2, false⟩ ⟨{5}, 1⟩ true true (by decide) (by decide)

/-- C2 counterexample: a reconciliation in which only the tag set changes
(the profile is already the target), processed on the webhook path: the
profile did not change, yet the webhook path invokes the search-trigger path
after the successful update. -/
theorem webhook_tagonly_triggers_search :
    (update_item ⟨5, 2, 1, false⟩ ⟨∅, 2⟩ true true).profileChanged = false ∧
    (update_item ⟨5, 2, 1, false⟩ ⟨∅, 2⟩ true true).updated = true ∧
    webhookSearchPathInvoked ⟨5, 2, 1, false⟩ ⟨∅, 2⟩ true true = true := by
  decide

/-- C2 amended: inside update_item (the batch reconciliation path) the
search-trigger path is invoked only when the quality profile changed; the
webhook path runs the same per-item reconciliation but then additionally
invokes the search-trigger path after every successful update, including
tag-only changes. -/
theorem search_trigger_gating (cfg : ArrCfg) (cur : ItemState) (addTag putOk : Bool) :
    ((update_item cfg cur addTag putOk).searchInvoked = true →
      (update_item cfg cur addTag putOk).profileChanged = true) ∧
    webhookSearchPathInvoked cfg cur addTag putOk =
      ((update_item cfg cur addTag putOk).searchInvoked ||
        (update_item cfg cur addTag putOk).updated) := by
  refine ⟨?_, rfl⟩
  by_cases hmem : cfg.tagId ∈ cur.tags <;>
    by_cases hprof : cur.profileId = (if addTag then cfg.dubProfile else cfg.origProfile) <;>
    cases addTag <;> cases putOk <;> cases hdry : cfg.dryRun <;>
    simp_all [update_item]

/-- Witness for C2's amended theorem at a profile-changing update: the
search-trigger path is invoked and indeed the profile changed. -/
theorem search_trigger_gating_witness :
    (((update_item ⟨5, 2, 1, false⟩ ⟨∅, 1⟩ true true).searchInvoked = true →
      (update_item ⟨5, 2, 1, false⟩ ⟨∅, 1⟩ true true).profileChanged = true) ∧
    webhookSearchPathInvoked ⟨5, 2, 1, false⟩ ⟨∅, 1⟩ true true =
      ((update_item ⟨5, 2, 1, false⟩ ⟨∅, 1⟩ true true).searchInvoked ||
        (update_item ⟨5, 2, 1, false⟩ ⟨∅, 1⟩ true true).updated)) :=
  search_trigger_gating ⟨5, 2, 1, false⟩ ⟨∅, 1⟩ true true

/-- C6: In dry-run mode, even for an item that needs an actual change, neither
reconciler issues a remote write and both return updated = false — on the
profile/tag path (update_item) and on the audio-tag path (update_item_tags). -/
theorem dry_run_no_mutation (cfg : ArrCfg) (cur : ItemState) (addTag putOk : Bool)
    (curA toAdd toRem : Finset Int) (dry2 putOk2 : Bool)
    (hdry : cfg.dryRun = true) (hdry2 : dry2 = true)
    (hchange : (if addTag then insert cfg.tagId cur.tags else cur.tags.erase cfg.tagId) ≠ cur.tags ∨
      cur.profileId ≠ (if addTag then cfg.dubProfile else cfg.origProfile))
    (hchange2 : (curA ∪ toAdd) \ toRem ≠ curA) :
    (update_item cfg cur addTag putOk).updated = false ∧
    (update_item cfg cur addTag putOk).wrote = none ∧
    (update_item_tags dry2 curA toAdd toRem putOk2).updated = false ∧
    (update_item_tags dry2 curA toAdd toRem putOk2).wrote = none := by
  have hu : (update_item cfg cur addTag putOk).updated = false ∧
      (update_item cfg cur addTag putOk).wrote = none := by
    by_cases hmem : cfg.tagId ∈ cur.tags <;>
      by_cases hprof : cur.profileId = (if addTag then cfg.dubProfile else cfg.origProfile) <;>
      cases addTag <;> simp_all [update_item]
  have ht : update_item_tags dry2 curA toAdd toRem putOk2 = ⟨false, none⟩ := by
    subst hdry2
    by_cases h : (curA ∪ toAdd) \ toRem = curA <;> simp [update_item_tags, h]
  exact ⟨hu.1, hu.2, by rw [ht], by rw [ht]⟩

/-- Witness for C6: dry-run with a required tag-and-profile change on the
profile path and a required tag addition on the audio path. -/
theorem dry_run_no_mutation_witness :
    (update_item ⟨5, 2, 1, true⟩ ⟨∅, 1⟩ true true).updated = false ∧
    (update_item ⟨5, 2, 1, true⟩ ⟨∅, 1⟩ true true).wrote = none ∧
    (update_item_tags true ∅ {7} ∅ true).updated = false ∧
    (update_item_tags true ∅ {7} ∅ true).wrote = none :=
  dry_run_no_mutation ⟨5, 2, 1, true⟩ ⟨∅, 1⟩ true true ∅ {7} ∅ true true rfl rfl
    (by decide) (by decide)

/-- Membership characterization of the resolved configured tag ids. -/
theorem mem_resolvedTagIds {l : List (String × String)} {tm : List (String × Int)} {x : Int} :
    x ∈ resolvedTagIds l tm ↔ ∃ q ∈ l, lookupTagId tm q.2 = some x := by
  simp [resolvedTagIds, List.mem_filterMap]

/-- Anything accumulated by the tag-delta loop is either already in the
accumulator or a resolved configured tag id. -/
theorem tagDelta_mem_resolved (tm : List (String × Int)) (detected : Finset String) :
    ∀ (l : List (String × String)) (acc : Finset Int × Finset Int) (x : Int),
      (x ∈ (l.foldl (tagDeltaStep tm detected) acc).1 ∨
        x ∈ (l.foldl (tagDeltaStep tm detected) acc).2) →
      x ∈ acc.1 ∨ x ∈ acc.2 ∨ x ∈ resolvedTagIds l tm := by
  intro l
  induction l with
  | nil =>
    intro acc x h
    simpa using h.imp id Or.inl
  | cons p l ih =>
    intro acc x h
    have hstep := ih (tagDeltaStep tm detected acc p) x h
    have hsub : x ∈ resolvedTagIds l tm → x ∈ resolvedTagIds (p :: l) tm := by
      intro hx
      rw [mem_resolvedTagIds] at hx ⊢
      obtain ⟨q, hq, hqx⟩ := hx
      exact ⟨q, List.mem_cons_of_mem p hq, hqx⟩
    have hacc : x ∈ (tagDeltaStep tm detected acc p).1 ∨ x ∈ (tagDeltaStep tm detected acc p).2 →
        x ∈ acc.1 ∨ x ∈ acc.2 ∨ x ∈ resolvedTagIds (p :: l) tm := by
      intro hx
      unfold tagDeltaStep at hx
      cases hlk : lookupTagId tm p.2 with
      | none => rw [hlk] at hx; tauto
      | some tid =>
        rw [hlk] at hx
        dsimp only at hx
        by_cases h0 : tid = 0
        · rw [if_pos h0] at hx; tauto
        · rw [if_neg h0] at hx
          by_cases hd : p.1 ∈ detected
          · rw [if_pos hd] at hx
            simp only [Finset.mem_insert] at hx
            rcases hx with (rfl | hx) | hx
            · exact Or.inr (Or.inr (mem_resolvedTagIds.mpr ⟨p, List.mem_cons_self p l, hlk⟩))
            · tauto
            · tauto
          · rw [if_neg hd] at hx
            simp only [Finset.mem_insert] at hx
            rcases hx with hx | (rfl | hx)
            · tauto
            · exact Or.inr (Or.inr (mem_resolvedTagIds.mpr ⟨p, List.mem_cons_self p l, hlk⟩))
            · tauto
    rcases hstep with hx | hx | hx
    · exact hacc (Or.inl hx)
    · exact hacc (Or.inr hx)
    · exact Or.inr (Or.inr (hsub hx))

/-- update_item_tags writes, when it writes at all, exactly the overlaid set
(current union additions, minus removals). -/
theorem update_item_tags_wrote (dry : Bool) (cur ta tr : Finset Int) (ok : Bool) (w : Finset Int)
    (hw : (update_item_tags dry cur ta tr ok).wrote = some w) :
    w = (cur ∪ ta) \ tr := by
  by_cases h1 : (cur ∪ ta) \ tr = cur <;> cases dry <;> cases ok <;>
    simp_all [update_item_tags]

/-- C8: The audio-tag update leaves unrelated tags untouched: the additions and
removals computed for an item only contain resolved configured tag ids, the
written set is exactly (current union toAdd) minus toRemove, and any tag id not
resolved from a configured mapping keeps its membership. -/
theorem audio_tag_frame (langToTag : List (String × String)) (tagMap : List (String × Int))
    (detected : Finset String) (cur : Finset Int) (dryRun putOk : Bool) (tid : Int)
    (h : tid ∉ resolvedTagIds langToTag tagMap) :
    (∀ x, x ∈ (computeTagDelta langToTag tagMap detected).1 →
      x ∈ resolvedTagIds langToTag tagMap) ∧
    (∀ x, x ∈ (computeTagDelta langToTag tagMap detected).2 →
      x ∈ resolvedTagIds langToTag tagMap) ∧
    (∀ w, (update_item_tags dryRun cur (computeTagDelta langToTag tagMap detected).1
        (computeTagDelta langToTag tagMap detected).2 putOk).wrote = some w →
      w = (cur ∪ (computeTagDelta langToTag tagMap detected).1) \
        (computeTagDelta langToTag tagMap detected).2) ∧
    ((tid ∈ (cur ∪ (computeTagDelta langToTag tagMap detected).1) \
        (computeTagDelta langToTag tagMap detected).2) ↔ tid ∈ cur) := by
  have hmem1 : ∀ x, x ∈ (computeTagDelta langToTag tagMap detected).1 →
      x ∈ resolvedTagIds langToTag tagMap := by
    intro x hx
    have := tagDelta_mem_resolved tagMap detected langToTag (∅, ∅) x (Or.inl hx)
    simpa using this
  have hmem2 : ∀ x, x ∈ (computeTagDelta langToTag tagMap detected).2 →
      x ∈ resolvedTagIds langToTag tagMap := by
    intro x hx
    have := tagDelta_mem_resolved tagMap detected langToTag (∅, ∅) x (Or.inr hx)
    simpa using this
  refine ⟨hmem1, hmem2, fun w hw => update_item_tags_wrote _ _ _ _ _ _ hw, ?_⟩
  have hta : tid ∉ (computeTagDelta langToTag tagMap detected).1 := fun hx => h (hmem1 tid hx)
  have htr : tid ∉ (computeTagDelta langToTag tagMap detected).2 := fun hx => h (hmem2 tid hx)
  simp [Finset.mem_sdiff, Finset.mem_union, hta, htr]

/-- Witness for C8: one configured mapping german to tag 7, tag 3 unrelated
and present on the item; it survives the overlay untouched. -/
theorem audio_tag_frame_witness :
    (∀ x, x ∈ (computeTagDelta [("german", "de-audio")] [("de-audio", 7)] {"german"}).1 →
      x ∈ resolvedTagIds [("german", "de-audio")] [("de-audio", 7)]) ∧
    (∀ x, x ∈ (computeTagDelta [("german", "de-audio")] [("de-audio", 7)] {"german"}).2 →
      x ∈ resolvedTagIds [("german", "de-audio")] [("de-audio", 7)]) ∧
    (∀ w, (update_item_tags false {3} (computeTagDelta [("german", "de-audio")] [("de-audio", 7)] {"german"}).1
        (computeTagDelta [("german", "de-audio")] [("de-audio", 7)] {"german"}).2 true).wrote = some w →
      w = ({3} ∪ (computeTagDelta [("german", "de-audio")] [("de-audio", 7)] {"german"}).1) \
        (computeTagDelta [("german", "de-audio")] [("de-audio", 7)] {"german"}).2) ∧
    ((3 ∈ (({3} : Finset Int) ∪ (computeTagDelta [("german", "de-audio")] [("de-audio", 7)] {"german"}).1) \
        (computeTagDelta [("german", "de-audio")] [("de-audio", 7)] {"german"}).2) ↔
      3 ∈ ({3} : Finset Int)) :=
  audio_tag_frame [("german", "de-audio")] [("de-audio", 7)] {"german"} {3} false true 3 (by decide)

/-- trigger_search_for_item either leaves the tracking state alone and returns
false, or the POST succeeded (feature on, not a cooldown denial, not dry-run)
and both timestamps were written. -/
theorem trigger_search_cases (cfg : SearchCfg) (st : SearchState) (itemId t1 twrite : Int)
    (post : PostOutcome) :
    trigger_search_for_item cfg st itemId t1 twrite post = ⟨st, false⟩ ∨
    (trigger_search_for_item cfg st itemId t1 twrite post =
        ⟨⟨setLast st.lastTriggered itemId twrite, twrite⟩, true⟩ ∧
      post = PostOutcome.ok ∧ cfg.dryRun = false ∧ cfg.triggerOn = true ∧
      ∀ last, lookupLast st.lastTriggered itemId = some last → cfg.cooldown ≤ t1 - last) := by
  unfold trigger_search_for_item
  cases htr : cfg.triggerOn with
  | false => left; rfl
  | true =>
    cases hd : cooldownDenied cfg st itemId t1 with
    | true => left; rfl
    | false =>
      cases hdry : cfg.dryRun with
      | true => left; rfl
      | false =>
        cases post with
        | err => left; rfl
        | ok =>
          right
          refine ⟨rfl, rfl, rfl, rfl, fun last hlast => ?_⟩
          have hnd : ¬(t1 - last < cfg.cooldown) := by
            intro hlt
            have hdt : cooldownDenied cfg st itemId t1 = true := by
              unfold cooldownDenied
              rw [hlast]
              simpa using hlt
            rw [hd] at hdt
            exact Bool.false_ne_true hdt
          omega

/-- C9: The search-cooldown tracker is mutated only by a successful trigger:
the per-item and global last-search timestamps change only when the command
POST succeeds, and when the feature is off, the per-item cooldown denies,
dry-run is on, or the POST raises, the state is unchanged and false is
returned. -/
theorem trigger_search_state_discipline (cfg : SearchCfg) (st : SearchState)
    (itemId t1 twrite : Int) (post : PostOutcome) :
    ((trigger_search_for_item cfg st itemId t1 twrite post).ret = false →
      (trigger_search_for_item cfg st itemId t1 twrite post).state = st) ∧
    (cfg.triggerOn = false →
      trigger_search_for_item cfg st itemId t1 twrite post = ⟨st, false⟩) ∧
    (cfg.dryRun = true →
      trigger_search_for_item cfg st itemId t1 twrite post = ⟨st, false⟩) ∧
    (post = PostOutcome.err →
      trigger_search_for_item cfg st itemId t1 twrite post = ⟨st, false⟩) ∧
    ((∃ last, lookupLast st.lastTriggered itemId = some last ∧ t1 - last < cfg.cooldown) →
      trigger_search_for_item cfg st itemId t1 twrite post = ⟨st, false⟩) ∧
    ((trigger_search_for_item cfg st itemId t1 twrite post).ret = true →
      post = PostOutcome.ok ∧ cfg.dryRun = false ∧ cfg.triggerOn = true ∧
      (trigger_search_for_item cfg st itemId t1 twrite post).state =
        ⟨setLast st.lastTriggered itemId twrite, twrite⟩) := by
  rcases trigger_search_cases cfg st itemId t1 twrite post with heq | ⟨heq, hok, hdry, htr, hcool⟩
  · rw [heq]
    refine ⟨fun _ => rfl, fun _ => rfl, fun _ => rfl, fun _ => rfl, fun _ => rfl, fun h => ?_⟩
    simp at h
  · rw [heq]
    refine ⟨fun h => by simp at h, fun h => ?_, fun h => ?_, fun h => ?_, fun h => ?_,
      fun _ => ⟨hok, hdry, htr, rfl⟩⟩
    · rw [htr] at h; exact absurd h (by simp)
    · rw [hdry] at h; exact absurd h (by simp)
    · rw [hok] at h; exact absurd h (by simp)
    · obtain ⟨last, hlast, hlt⟩ := h
      have := hcool last hlast
      omega

/-- Witness for C9 at a concrete successful trigger. -/
theorem trigger_search_state_discipline_witness :
    (((trigger_search_for_item ⟨true, 60, 5, false⟩ ⟨[], 0⟩ 1 100 101 PostOutcome.ok).ret = false →
      (trigger_search_for_item ⟨true, 60, 5, false⟩ ⟨[], 0⟩ 1 100 101 PostOutcome.ok).state = ⟨[], 0⟩) ∧
    ((⟨true, 60, 5, false⟩ : SearchCfg).triggerOn = false →
      trigger_search_for_item ⟨true, 60, 5, false⟩ ⟨[], 0⟩ 1 100 101 PostOutcome.ok = ⟨⟨[], 0⟩, false⟩) ∧
    ((⟨true, 60, 5, false⟩ : SearchCfg).dryRun = true →
      trigger_search_for_item ⟨true, 60, 5, false⟩ ⟨[], 0⟩ 1 100 101 PostOutcome.ok = ⟨⟨[], 0⟩, false⟩) ∧
    (PostOutcome.ok = PostOutcome.err →
      trigger_search_for_item ⟨true, 60, 5, false⟩ ⟨[], 0⟩ 1 100 101 PostOutcome.ok = ⟨⟨[], 0⟩, false⟩) ∧
    ((∃ last, lookupLast ([] : List (Int × Int)) 1 = some last ∧
        100 - last < (⟨true, 60, 5, false⟩ : SearchCfg).cooldown) →
      trigger_search_for_item ⟨true, 60, 5, false⟩ ⟨[], 0⟩ 1 100 101 PostOutcome.ok = ⟨⟨[], 0⟩, false⟩) ∧
    ((trigger_search_for_item ⟨true, 60, 5, false⟩ ⟨[], 0⟩ 1 100 101 PostOutcome.ok).ret = true →
      PostOutcome.ok = PostOutcome.ok ∧ (⟨true, 60, 5, false⟩ : SearchCfg).dryRun = false ∧
      (⟨true, 60, 5, false⟩ : SearchCfg).triggerOn = true ∧
      (trigger_search_for_item ⟨true, 60, 5, false⟩ ⟨[], 0⟩ 1 100 101 PostOutcome.ok).state =
        ⟨setLast [] 1 101, 101⟩)) :=
  trigger_search_state_discipline ⟨true, 60, 5, false⟩ ⟨[], 0⟩ 1 100 101 PostOutcome.ok

/-- Membership in the matched-ids fold: an id comes out iff it was already in
the accumulator or some configured token resolves to it. -/
theorem collectStep_foldl_mem (f : PyVal → Option PyVal) :
    ∀ (cfgs : List PyVal) (acc : List PyVal) (k : PyVal),
      k ∈ cfgs.foldl (collectStep f) acc ↔ k ∈ acc ∨ ∃ c ∈ cfgs, f c = some k := by
  intro cfgs
  induction cfgs with
  | nil => intro acc k; simp
  | cons c cfgs ih =>
    intro acc k
    rw [List.foldl_cons, ih]
    cases hf : f c with
    | none =>
      simp only [collectStep, hf]
      constructor
      · rintro (h | ⟨d, hd, hfd⟩)
        · exact Or.inl h
        · exact Or.inr ⟨d, List.mem_cons_of_mem _ hd, hfd⟩
      · rintro (h | ⟨d, hd, hfd⟩)
        · exact Or.inl h
        · rcases List.mem_cons.mp hd with rfl | hd'
          · rw [hf] at hfd; exact absurd hfd (by simp)
          · exact Or.inr ⟨d, hd', hfd⟩
    | some x =>
      by_cases hc : acc.contains x
      · have hxacc : x ∈ acc := by simpa using hc
        simp only [collectStep, hf, if_pos hc]
        constructor
        · rintro (h | ⟨d, hd, hfd⟩)
          · exact Or.inl h
          · exact Or.inr ⟨d, List.mem_cons_of_mem _ hd, hfd⟩
        · rintro (h | ⟨d, hd, hfd⟩)
          · exact Or.inl h
          · rcases List.mem_cons.mp hd with rfl | hd'
            · rw [hf] at hfd
              injection hfd with he
              subst he
              exact Or.inl hxacc
            · exact Or.inr ⟨d, hd', hfd⟩
      · simp only [collectStep, hf, if_neg hc]
        constructor
        · rintro (h | ⟨d, hd, hfd⟩)
          · rcases List.mem_append.mp h with h' | h'
            · exact Or.inl h'
            · have he : k = x := by simpa using h'
              subst he
              exact Or.inr ⟨c, List.mem_cons_self c cfgs, hf⟩
          · exact Or.inr ⟨d, List.mem_cons_of_mem _ hd, hfd⟩
        · rintro (h | ⟨d, hd, hfd⟩)
          · exact Or.inl (List.mem_append.mpr (Or.inl h))
          · rcases List.mem_cons.mp hd with rfl | hd'
            · rw [hf] at hfd
              injection hfd with he
              subst he
              exact Or.inl (List.mem_append.mpr (Or.inr (by simp)))
            · exact Or.inr ⟨d, hd', hfd⟩

/-- The source's observed-name scan and the spec-worded scan agree. -/
theorem matchByName_eq_nameScanSpec (target : String) :
    ∀ obs : List (PyVal × String), matchByName obs target = nameScanSpec target obs := by
  intro obs
  induction obs with
  | nil => rfl
  | cons p rest ih =>
    obtain ⟨k, nm⟩ := p
    unfold matchByName nameScanSpec
    rw [ih]

/-- The source's per-token resolution and the amended spec's per-token
resolution agree. -/
theorem matchConfigLang_eq_specIso (obs : List (PyVal × String)) (cfg : PyVal) :
    matchConfigLang obs cfg = specMatchOneIso obs cfg := by
  unfold matchConfigLang specMatchOneIso
  cases hn : pyToInt cfg with
  | none =>
    dsimp only
    rw [matchByName_eq_nameScanSpec]
  | some n =>
    dsimp only
    have h2 : ((obs.any fun p => p.1 == PyVal.pint n) = true) ↔
        PyVal.pint n ∈ obs.map (·.1) := by
      simp [List.any_eq_true, List.mem_map]
    rw [matchByName_eq_nameScanSpec]
    by_cases hmem : PyVal.pint n ∈ obs.map (·.1)
    · rw [if_pos (h2.mpr hmem), if_pos hmem]
    · rw [if_neg (fun hx => hmem (h2.mp hx)), if_neg hmem]

/-- C3 counterexample: with one observed language (id 4, name "German") and
the configured token "deutsch", the source map (iso_639_1_map normalization,
under which "deutsch" passes through unmatched) is empty, while the map the
spec describes (LanguageNormalizer normalization, "deutsch" to "german")
matches id 4 — so the normalization inside build_language_mapping does not
agree with the alias-table normalization on every token. -/
theorem build_language_mapping_ne_specAlias :
    build_language_mapping [OrigLang.obj (some (PyVal.pint 4)) (some "German")]
        [PyVal.pstr "deutsch"] ≠
      buildMapSpecAlias [OrigLang.obj (some (PyVal.pint 4)) (some "German")]
        [PyVal.pstr "deutsch"] := by
  decide

/-- C3 amended: build_language_mapping agrees, as a set of matched ids, with
the spec-worded map that resolves each configured token by direct numeric-id
passthrough and otherwise normalizes it via the fixed ISO-639 code table
(exact lookup, falling back to the token itself) before scanning every
observed name in observation order, accepting the first exact or
substring-overlap match. -/
theorem build_language_mapping_refines_iso (items : List OrigLang)
    (cfgLangs : List PyVal) (k : PyVal) :
    k ∈ build_language_mapping items cfgLangs ↔ k ∈ buildMapSpecIso items cfgLangs := by
  unfold build_language_mapping buildMapSpecIso
  by_cases hobs : observeLangs items = []
  · simp [hobs]
  · have h1 : (observeLangs items).isEmpty = false := by
      cases ho : observeLangs items with
      | nil => exact absurd ho hobs
      | cons a l => rfl
    rw [if_neg (by simp [h1]), if_neg hobs]
    rw [collectStep_foldl_mem (matchConfigLang (observeLangs items))]
    simp only [List.mem_dedup, List.mem_filterMap, List.not_mem_nil, false_or]
    constructor
    · rintro ⟨c, hc, hfc⟩
      exact ⟨c, hc, by rw [← matchConfigLang_eq_specIso]; exact hfc⟩
    · rintro ⟨c, hc, hfc⟩
      exact ⟨c, hc, by rw [matchConfigLang_eq_specIso]; exact hfc⟩
